import Mathlib

/-!
Shallow embedding of the Stormlands valuation core: the four valuation
models (DCF, Graham, Magic Formula, Relative), the composite scorer
(`ComprehensiveValuation`), the hybrid integrator
(`HybridAnalysisService`), and the batch endpoint (`analyze_batch_hybrid`).

Numbers are embedded as exact rationals (reals for the Graham model,
whose score depends on a square root).  Python optional values become
`Option`; Python truthiness on numbers (`if x:` treating both `None`
and `0` as false) is modelled explicitly.
-/

namespace Stormlands

/-- Python truthiness of an optional number: `None` and `0` are falsy. -/
def pyTruthy (v : Option ℚ) : Bool :=
  match v with
  | Option.none => false
  | Option.some x => x != 0

/-- Python `round` to an integer: round half to even (banker's rounding). -/
def pyRound (x : ℚ) : ℤ :=
  if x - ⌊x⌋ < 1/2 then ⌊x⌋
  else if x - ⌊x⌋ > 1/2 then ⌊x⌋ + 1
  else if ⌊x⌋ % 2 = 0 then ⌊x⌋ else ⌊x⌋ + 1

/-- Python `round(x, 2)`. -/
def round2 (x : ℚ) : ℚ := (pyRound (x * 100) : ℚ) / 100

/-- Python `round(x, 1)`. -/
def round1 (x : ℚ) : ℚ := (pyRound (x * 10) : ℚ) / 10

/-- `BaseValuation.normalize_score`: map a value onto the {100, 80, 60, 40}
scale given three thresholds and a direction flag; `None` maps to 50. -/
def normalize_score (value : Option ℚ) (excellent good fair : ℚ)
    (inverse : Bool) : ℚ :=
  match value with
  | Option.none => 50
  | Option.some v =>
    if inverse then
      if v ≤ excellent then 100
      else if v ≤ good then 80
      else if v ≤ fair then 60
      else 40
    else
      if v ≥ excellent then 100
      else if v ≥ good then 80
      else if v ≥ fair then 60
      else 40

/-- `DCFValuation.calculate` score step:
`max(0, min(100, (upside_pct + 50) / 100 * 100))`. -/
def dcf_score (upside_pct : ℚ) : ℚ :=
  max 0 (min 100 ((upside_pct + 50) / 100 * 100))

/-- `MagicFormula._calculate_score`: 50%-weighted piecewise mapping of
ROIC (thresholds 20/10/5) and earnings yield (thresholds 10/5/2). -/
def magic_calculate_score (roic earnings_yield : ℚ) : ℚ :=
  normalize_score (Option.some roic) 20 10 5 false * 0.5 +
    normalize_score (Option.some earnings_yield) 10 5 2 false * 0.5

/-- `RelativeValuation._calculate_score`: average of the piecewise scores of
the components that are present (Python-truthy), with the PEG component
weighted by 1.2; 50 when no component is present. -/
def relative_calculate_score (per_to_sector pbr_to_sector peg : Option ℚ) : ℚ :=
  let scores : List ℚ :=
    (if pyTruthy per_to_sector then
      [normalize_score per_to_sector 0.7 0.9 1.1 true] else []) ++
    (if pyTruthy pbr_to_sector then
      [normalize_score pbr_to_sector 0.7 0.9 1.1 true] else []) ++
    (if pyTruthy peg then
      [normalize_score peg 0.7 1.0 1.5 true * 1.2] else [])
  if scores = [] then 50 else scores.sum / scores.length

/-- Per-model weight map used by `ComprehensiveValuation`. -/
structure Weights where
  dcf : ℚ
  relative : ℚ
  graham : ℚ
  magic : ℚ
deriving DecidableEq

/-- Sum of the weight map's values. -/
def Weights.total (w : Weights) : ℚ := w.dcf + w.relative + w.graham + w.magic

/-- Default weights of `ComprehensiveValuation.__init__`. -/
def default_weights : Weights := ⟨0.30, 0.25, 0.25, 0.20⟩

/-- Weight handling in `ComprehensiveValuation.__init__`: the weights are
divided by their sum only when that sum differs from 1.0 by more than 0.01. -/
def init_weights (w : Weights) : Weights :=
  let s := w.total
  if |s - 1| > 0.01 then ⟨w.dcf / s, w.relative / s, w.graham / s, w.magic / s⟩
  else w

/-- Per-model scores as extracted in `ComprehensiveValuation.analyze`
(`None` = the model could not be computed). -/
structure ModelScores where
  dcf : Option ℚ
  relative : Option ℚ
  graham : Option ℚ
  magic : Option ℚ
deriving DecidableEq

/-- Contribution of one model to the weighted sum: `score * weight` when the
score `is not None`, else 0. -/
def score_contrib (weight : ℚ) (score : Option ℚ) : ℚ :=
  match score with
  | Option.some v => v * weight
  | Option.none => 0

/-- Contribution of one model to the valid-weight sum: `weight` when the
score `is not None`, else 0. -/
def weight_contrib (weight : ℚ) (score : Option ℚ) : ℚ :=
  match score with
  | Option.some _ => weight
  | Option.none => 0

/-- `ComprehensiveValuation._calculate_composite_score`: weighted sum over
models with a present score, divided by the sum of their weights, times the
sum of all configured weights; 0 when no model has a present score. -/
def calculate_composite_score (w : Weights) (s : ModelScores) : ℚ :=
  let weighted_sum := score_contrib w.dcf s.dcf + score_contrib w.relative s.relative +
    score_contrib w.graham s.graham + score_contrib w.magic s.magic
  let valid_weight_sum := weight_contrib w.dcf s.dcf + weight_contrib w.relative s.relative +
    weight_contrib w.graham s.graham + weight_contrib w.magic s.magic
  if valid_weight_sum = 0 then 0
  else weighted_sum / valid_weight_sum * w.total

/-- Composite formula as the specification states it:
`composite = weighted_sum / valid_weight · Σ(all weights)` over the valid
models, and 0 when `valid_weight = 0`. -/
def composite_spec (w : Weights) (s : ModelScores) : ℚ :=
  let valid_weight :=
    (match s.dcf with | Option.some _ => w.dcf | Option.none => 0) +
    (match s.relative with | Option.some _ => w.relative | Option.none => 0) +
    (match s.graham with | Option.some _ => w.graham | Option.none => 0) +
    (match s.magic with | Option.some _ => w.magic | Option.none => 0)
  let weighted_sum :=
    (match s.dcf with | Option.some v => w.dcf * v | Option.none => 0) +
    (match s.relative with | Option.some v => w.relative * v | Option.none => 0) +
    (match s.graham with | Option.some v => w.graham * v | Option.none => 0) +
    (match s.magic with | Option.some v => w.magic * v | Option.none => 0)
  if valid_weight = 0 then 0
  else weighted_sum / valid_weight * (w.dcf + w.relative + w.graham + w.magic)

/-- `ComprehensiveValuation._get_composite_rating` band function. -/
def get_composite_rating (score : ℚ) : String :=
  if score ≥ 85 then "strong_buy"
  else if score ≥ 70 then "buy"
  else if score ≥ 55 then "accumulate"
  else if score ≥ 45 then "hold"
  else if score ≥ 30 then "reduce"
  else "sell"

/-- Reporting of one model score in `ComprehensiveValuation.analyze`'s result:
`round(v, 2) if v else None`, i.e. Python-truthiness on the score. -/
def report_score (v : Option ℚ) : Option ℚ :=
  match v with
  | Option.some x => if x ≠ 0 then Option.some (round2 x) else Option.none
  | Option.none => Option.none

/-- The `model_scores` field of `ComprehensiveValuation.analyze`'s result. -/
def analyze_model_scores (s : ModelScores) : ModelScores :=
  ⟨report_score s.dcf, report_score s.relative, report_score s.graham,
    report_score s.magic⟩

/-! ### Graham model (`GrahamValuation`)

The Graham Number involves a square root, so this model is embedded over
the reals. -/

/-- Python `round` over the reals (round half to even). -/
noncomputable def pyRoundR (x : ℝ) : ℤ :=
  if x - ⌊x⌋ < 1/2 then ⌊x⌋
  else if x - ⌊x⌋ > 1/2 then ⌊x⌋ + 1
  else if ⌊x⌋ % 2 = 0 then ⌊x⌋ else ⌊x⌋ + 1

/-- Python `round(x, 2)` over the reals. -/
noncomputable def round2R (x : ℝ) : ℝ := (pyRoundR (x * 100) : ℝ) / 100

/-- The seven boolean defensive-investor criteria of
`GrahamValuation._check_graham_criteria`. -/
structure GrahamCriteria where
  per_ok : Bool
  pbr_ok : Bool
  debt_ok : Bool
  current_ratio_ok : Bool
  earnings_growth_ok : Bool
  dividend_ok : Bool
  roe_ok : Bool

/-- `sum(criteria.values())`: the number of criteria passed. -/
def GrahamCriteria.passed (c : GrahamCriteria) : ℕ :=
  c.per_ok.toNat + c.pbr_ok.toNat + c.debt_ok.toNat + c.current_ratio_ok.toNat +
    c.earnings_growth_ok.toNat + c.dividend_ok.toNat + c.roe_ok.toNat

/-- `GrahamValuation._calculate_graham_number`:
`sqrt(22.5 * eps * bps)`, `None` when EPS or BPS is missing, zero
(Python-falsy) or non-positive. -/
noncomputable def graham_number (eps bps : Option ℝ) : Option ℝ :=
  match eps, bps with
  | Option.some e, Option.some b =>
    if e ≤ 0 ∨ b ≤ 0 then Option.none else Option.some (Real.sqrt (22.5 * e * b))
  | _, _ => Option.none

/-- Margin-of-safety step of `GrahamValuation.calculate`:
`(graham_number - price) / graham_number * 100` when both the Graham Number
and the current price are Python-truthy, else `None`. -/
noncomputable def graham_margin_of_safety (gn price : Option ℝ) : Option ℝ :=
  match gn, price with
  | Option.some g, Option.some p =>
    if g ≠ 0 ∧ p ≠ 0 then Option.some ((g - p) / g * 100) else Option.none
  | _, _ => Option.none

/-- Safety-score step of `GrahamValuation.calculate`: starts at 0 and is
set to `max(0, min(30, (margin_of_safety + 30) / 60 * 30))` only when
`margin_of_safety` is Python-truthy (present and nonzero). -/
noncomputable def graham_safety_score (mos : Option ℝ) : ℝ :=
  match mos with
  | Option.some m => if m ≠ 0 then max 0 (min 30 ((m + 30) / 60 * 30)) else 0
  | Option.none => 0

/-- Score step of `GrahamValuation.calculate`:
`(criteria_passed / 7) * 70 + safety_score`. -/
noncomputable def graham_score (criteria_passed : ℕ) (mos : Option ℝ) : ℝ :=
  (criteria_passed : ℝ) / 7 * 70 + graham_safety_score mos

/-- The fields of `GrahamValuation.calculate`'s result that the claims
are about. -/
structure GrahamResult where
  score : Option ℝ
  graham_number : Option ℝ
  margin_of_safety : Option ℝ
  criteria_passed : ℕ

/-- `GrahamValuation.calculate`.  `data_valid` is the `validate_data()`
check (stock record, latest financial statement and price row all present);
when it fails the error result with `score = None` is returned.  The
reported `graham_number` and `margin_of_safety` are rounded when
Python-truthy and reported as `None` otherwise. -/
noncomputable def graham_calculate (data_valid : Bool) (eps bps price : Option ℝ)
    (criteria : GrahamCriteria) : GrahamResult :=
  if !data_valid then ⟨Option.none, Option.none, Option.none, 0⟩
  else
    let gn := graham_number eps bps
    let mos := graham_margin_of_safety gn price
    let score := graham_score criteria.passed mos
    { score := Option.some (round2R score)
      graham_number :=
        match gn with
        | Option.some g => if g ≠ 0 then Option.some (round2R g) else Option.none
        | Option.none => Option.none
      margin_of_safety :=
        match mos with
        | Option.some m => if m ≠ 0 then Option.some (round2R m) else Option.none
        | Option.none => Option.none
      criteria_passed := criteria.passed }

/-- The margin-of-safety value of `GrahamValuation.calculate` written out
for a computable Graham number: `(sqrt(22.5·eps·bps) − price) /
sqrt(22.5·eps·bps) × 100`. -/
noncomputable def graham_mos_value (eps bps price : ℝ) : ℝ :=
  (Real.sqrt (22.5 * eps * bps) - price) / Real.sqrt (22.5 * eps * bps) * 100

/-- The safety-band expression of `GrahamValuation.calculate`:
`max(0, min(30, (margin_of_safety + 30) / 60 * 30))`. -/
noncomputable def graham_clamp (m : ℝ) : ℝ := max 0 (min 30 ((m + 30) / 60 * 30))

/-! ### Hybrid integrator (`HybridAnalysisService`) -/

/-- Sentiment impact categories produced by `_assess_sentiment_impact`. -/
inductive SentimentImpact where
  | negative_strong
  | negative_moderate
  | positive_strong
  | positive_moderate
  | neutral
  | no_impact
deriving DecidableEq

/-- The `financial_quality_check` entry of the AI analysis map. -/
structure QualityCheck where
  score_adjustment : ℚ
  adjustment_reason : String
  adjustment_confidence : String

/-- The `sentiment_analysis` entry of the AI analysis map. -/
structure SentimentAnalysis where
  impact : SentimentImpact
  recent_trend : String
  discrepancy : Bool

/-- Anomaly severity levels. -/
inductive Severity where
  | high
  | medium
  | low
deriving DecidableEq

/-- The `anomaly_detection` entry of the AI analysis map. -/
structure AnomalyDetection where
  anomalies_detected : Bool
  severity : Severity

/-- The AI analysis map passed to `_integrate_results`; each key may be
absent (in particular all three are absent when
`include_ai_adjustment=false`). -/
structure AIAnalysis where
  financial_quality_check : Option QualityCheck
  sentiment_analysis : Option SentimentAnalysis
  anomaly_detection : Option AnomalyDetection

/-- The empty AI analysis map (`include_ai_adjustment=false` path). -/
def empty_ai : AIAnalysis := ⟨Option.none, Option.none, Option.none⟩

/-- One adjustment record appended by `_integrate_results`. -/
structure Adjustment where
  type : String
  adjustment : ℚ
  reason : String
deriving DecidableEq

/-- Sentiment delta of `_integrate_results`: −8 / −4 for strong / moderate
negative impact; +5 / +2 for strong / moderate positive impact but only when
the base score is below 70; no delta otherwise. -/
def sentiment_delta (impact : SentimentImpact) (base_score : ℚ) : Option ℚ :=
  match impact with
  | SentimentImpact.negative_strong => Option.some (-8)
  | SentimentImpact.negative_moderate => Option.some (-4)
  | SentimentImpact.positive_strong =>
    if base_score < 70 then Option.some 5 else Option.none
  | SentimentImpact.positive_moderate =>
    if base_score < 70 then Option.some 2 else Option.none
  | SentimentImpact.neutral => Option.none
  | SentimentImpact.no_impact => Option.none

/-- Anomaly delta of `_integrate_results`: high → −10, medium → −5,
low → −2. -/
def anomaly_delta (s : Severity) : ℚ :=
  match s with
  | Severity.high => -10
  | Severity.medium => -5
  | Severity.low => -2

/-- Confidence-factor tag: the source formats `anomaly_` followed by the severity label. -/
def severity_factor (s : Severity) : String :=
  match s with
  | Severity.high => "anomaly_high"
  | Severity.medium => "anomaly_medium"
  | Severity.low => "anomaly_low"

/-- `HybridAnalysisService._get_rating_from_score` band function. -/
def get_rating_from_score (score : ℚ) : String :=
  if score ≥ 85 then "strong_buy"
  else if score ≥ 70 then "buy"
  else if score ≥ 55 then "accumulate"
  else if score ≥ 45 then "hold"
  else if score ≥ 30 then "reduce"
  else "sell"

/-- `HybridAnalysisService._calculate_confidence`: low when the total
absolute adjustment exceeds 15 or there are at least 3 negative factors;
else medium when the total exceeds 8 or there are at least 2 factors;
else high. -/
def calculate_confidence (adjustments : List Adjustment)
    (confidence_factors : List String) : String :=
  if (adjustments.map fun a => |a.adjustment|).sum > 15 ∨
      confidence_factors.length ≥ 3 then "low"
  else if (adjustments.map fun a => |a.adjustment|).sum > 8 ∨
      confidence_factors.length ≥ 2 then "medium"
  else "high"

/-- The result record of `_integrate_results`.  `explanation_included`
models the presence of the optional `explanation` key. -/
structure HybridResult where
  base_score : ℚ
  adjusted_score : ℚ
  score_change : ℚ
  final_rating : String
  confidence_level : String
  adjustments : List Adjustment
  adjustment_count : ℕ
  explanation_included : Bool
deriving DecidableEq

/-- Quality step of `_integrate_results`: delta, appended adjustment
records and appended confidence factors. -/
def quality_step (q : Option QualityCheck) : ℚ × List Adjustment × List String :=
  match q with
  | Option.some qc =>
    if qc.score_adjustment ≠ 0 then
      (qc.score_adjustment,
        [⟨"financial_quality", qc.score_adjustment, qc.adjustment_reason⟩],
        if |qc.score_adjustment| > 10 then ["large_quality_adjustment"] else [])
    else (0, [], [])
  | Option.none => (0, [], [])

/-- Sentiment step of `_integrate_results`. -/
def sentiment_step (s : Option SentimentAnalysis) (base_score : ℚ) :
    ℚ × List Adjustment × List String :=
  match s with
  | Option.some sa =>
    let applied : ℚ × List Adjustment :=
      match sentiment_delta sa.impact base_score with
      | Option.some d =>
        (d, [⟨if d < 0 then "negative_sentiment" else "positive_sentiment", d,
          sa.recent_trend⟩])
      | Option.none => (0, [])
    (applied.1, applied.2, if sa.discrepancy then ["sentiment_discrepancy"] else [])
  | Option.none => (0, [], [])

/-- Anomaly step of `_integrate_results`. -/
def anomaly_step (a : Option AnomalyDetection) : ℚ × List Adjustment × List String :=
  match a with
  | Option.some ad =>
    if ad.anomalies_detected then
      (anomaly_delta ad.severity,
        [⟨"anomaly_detected", anomaly_delta ad.severity, ""⟩],
        [severity_factor ad.severity])
    else (0, [], [])
  | Option.none => (0, [], [])

/-- `HybridAnalysisService._integrate_results`: apply the quality, sentiment
and anomaly deltas to the composite base score, clamp to [0, 100], band the
result, and classify confidence from the adjustment records and factors. -/
def integrate_results (base_score : ℚ) (ai : AIAnalysis) (explain : Bool) :
    HybridResult :=
  let q := quality_step ai.financial_quality_check
  let s := sentiment_step ai.sentiment_analysis base_score
  let a := anomaly_step ai.anomaly_detection
  let adjustments := q.2.1 ++ s.2.1 ++ a.2.1
  let confidence_factors := q.2.2 ++ s.2.2 ++ a.2.2
  let adjusted_score := max 0 (min 100 (base_score + q.1 + s.1 + a.1))
  { base_score := round1 base_score
    adjusted_score := round1 adjusted_score
    score_change := round1 (adjusted_score - base_score)
    final_rating := get_rating_from_score adjusted_score
    confidence_level := calculate_confidence adjustments confidence_factors
    adjustments := adjustments
    adjustment_count := adjustments.length
    explanation_included := explain && !(adjustments = []) }

/-! ### Batch endpoint (`analyze_batch_hybrid` in `routers/hybrid.py`) -/

/-- Successful per-ticker analysis as used by the batch endpoint's sorting
key (the adjusted/composite score). -/
structure BatchItem where
  ticker : String
  adjusted_score : ℚ
deriving DecidableEq

/-- Outcome of running the full pipeline on one ticker: the `try` body
succeeds, or the `except` branch converts the failure into a
`{ticker, error}` record. -/
inductive Outcome where
  | success (item : BatchItem)
  | failure (ticker : String) (error : String)
deriving DecidableEq

/-- `[r for r in results if "error" not in r]`. -/
def batch_successes (results : List Outcome) : List BatchItem :=
  results.filterMap fun r =>
    match r with
    | Outcome.success i => Option.some i
    | Outcome.failure _ _ => Option.none

/-- `[r for r in results if "error" in r]`. -/
def batch_failures (results : List Outcome) : List Outcome :=
  results.filter fun r =>
    match r with
    | Outcome.success _ => false
    | Outcome.failure _ _ => true

/-- Descending comparison on the sort key, as in
`sorted(..., key=lambda x: x["adjusted_score"], reverse=True)`. -/
def score_ge (a b : BatchItem) : Prop := b.adjusted_score ≤ a.adjusted_score

instance : DecidableRel score_ge := fun a b =>
  inferInstanceAs (Decidable (b.adjusted_score ≤ a.adjusted_score))

instance : IsTotal BatchItem score_ge :=
  ⟨fun a b => (le_total b.adjusted_score a.adjusted_score).imp id id⟩

instance : IsTrans BatchItem score_ge :=
  ⟨fun _ _ _ h1 h2 => le_trans h2 h1⟩

/-- The response record of `analyze_batch_hybrid`. -/
structure BatchResponse where
  total : ℕ
  success : ℕ
  failed : ℕ
  results : List Outcome
deriving DecidableEq

/-- Result assembly of `analyze_batch_hybrid`: per-ticker outcomes are
collected in order (failures became `{ticker, error}` records instead of
aborting), the successes are sorted by adjusted score descending, and the
error records are concatenated after them. -/
def analyze_batch (results : List Outcome) : BatchResponse :=
  let results_sorted := List.insertionSort score_ge (batch_successes results)
  let errors := batch_failures results
  { total := results.length
    success := results_sorted.length
    failed := errors.length
    results := results_sorted.map Outcome.success ++ errors }

/-! ### Helper lemmas -/

theorem pyRound_ge {y : ℚ} {n : ℤ} (h : (n : ℚ) ≤ y) : n ≤ pyRound y := by
  have hf : n ≤ ⌊y⌋ := Int.le_floor.mpr h
  unfold pyRound
  split_ifs <;> omega

theorem pyRound_le {y : ℚ} {n : ℤ} (h : y ≤ (n : ℚ)) : pyRound y ≤ n := by
  have hf : ⌊y⌋ ≤ n := by
    have := Int.floor_le_floor (α := ℚ) h
    simpa using this
  have hfc : (⌊y⌋ : ℚ) ≤ y := Int.floor_le y
  unfold pyRound
  split_ifs with h1 h2 h3
  · exact hf
  · by_contra hc
    have he : ⌊y⌋ = n := by omega
    have : y - (⌊y⌋ : ℚ) ≤ 0 := by rw [he]; linarith
    linarith
  · exact hf
  · by_contra hc
    have he : ⌊y⌋ = n := by omega
    have hr : y - (⌊y⌋ : ℚ) = 1/2 := le_antisymm (not_lt.mp h2) (not_lt.mp h1)
    have : y - (⌊y⌋ : ℚ) ≤ 0 := by rw [he]; linarith
    linarith

theorem round1_bounds {x : ℚ} (h0 : 0 ≤ x) (h1 : x ≤ 100) :
    0 ≤ round1 x ∧ round1 x ≤ 100 := by
  have hle : pyRound (x * 10) ≤ (1000 : ℤ) := pyRound_le (by push_cast; linarith)
  have hge : (0 : ℤ) ≤ pyRound (x * 10) := pyRound_ge (by push_cast; linarith)
  constructor
  · exact div_nonneg (by exact_mod_cast hge) (by norm_num)
  · rw [round1, div_le_iff₀ (by norm_num : (0:ℚ) < 10)]
    calc (pyRound (x * 10) : ℚ) ≤ 1000 := by exact_mod_cast hle
    _ = 100 * 10 := by norm_num

theorem normalize_score_bounds (v : Option ℚ) (e g f : ℚ) (i : Bool) :
    40 ≤ normalize_score v e g f i ∧ normalize_score v e g f i ≤ 100 := by
  unfold normalize_score
  rcases v with _ | x
  · norm_num
  · rcases i <;> simp only [] <;> split_ifs <;> norm_num

theorem contrib_bounds (w : ℚ) (o : Option ℚ) (hw : 0 ≤ w)
    (ho : ∀ x ∈ o, 0 ≤ x ∧ x ≤ 100) :
    0 ≤ score_contrib w o ∧ score_contrib w o ≤ 100 * weight_contrib w o ∧
      0 ≤ weight_contrib w o := by
  rcases o with _ | x
  · simp [score_contrib, weight_contrib]
  · have hx := ho x (by simp)
    refine ⟨mul_nonneg hx.1 hw, ?_, hw⟩
    simp only [score_contrib, weight_contrib]
    nlinarith [hx.2, hw]

theorem passed_le_seven (c : GrahamCriteria) : c.passed ≤ 7 := by
  have h : ∀ b : Bool, b.toNat ≤ 1 := fun b => by cases b <;> simp
  have h1 := h c.per_ok
  have h2 := h c.pbr_ok
  have h3 := h c.debt_ok
  have h4 := h c.current_ratio_ok
  have h5 := h c.earnings_growth_ok
  have h6 := h c.dividend_ok
  have h7 := h c.roe_ok
  unfold GrahamCriteria.passed
  omega

theorem quality_step_factors_of_empty (q : Option QualityCheck)
    (h : (quality_step q).2.1 = []) : (quality_step q).2.2 = [] := by
  rcases q with _ | qc
  · simp [quality_step]
  · by_cases hz : qc.score_adjustment ≠ 0
    · simp [quality_step, hz] at h
    · simp [quality_step, hz]

theorem anomaly_step_factors_of_empty (a : Option AnomalyDetection)
    (h : (anomaly_step a).2.1 = []) : (anomaly_step a).2.2 = [] := by
  rcases a with _ | ad
  · simp [anomaly_step]
  · by_cases hd : ad.anomalies_detected
    · simp [anomaly_step, hd] at h
    · simp [anomaly_step, hd]

theorem sentiment_step_factors_len (s : Option SentimentAnalysis) (base : ℚ) :
    (sentiment_step s base).2.2.length ≤ 1 := by
  rcases s with _ | sa
  · simp [sentiment_step]
  · by_cases hd : sa.discrepancy <;> simp [sentiment_step, hd]

theorem score_in_range_some (v : ℚ) (h0 : 0 ≤ v) (h1 : v ≤ 100) :
    ∀ x ∈ Option.some v, 0 ≤ x ∧ x ≤ 100 := by
  intro x hx
  simp at hx
  subst hx
  exact ⟨h0, h1⟩

theorem score_in_range_none : ∀ x ∈ (Option.none : Option ℚ), 0 ≤ x ∧ x ≤ 100 := by
  intro x hx
  simp at hx

/-! ### Claims -/

/-- C1 counterexample: when only the PEG component is present (a Python-truthy
PEG of 0.5, PER- and PBR-ratios absent), `RelativeValuation._calculate_score`
returns `normalize_score(0.5) * 1.2 = 120`, outside [0, 100]. -/
theorem C1_counterexample :
    relative_calculate_score Option.none Option.none (Option.some 0.5) = 120 ∧
    ¬ relative_calculate_score Option.none Option.none (Option.some 0.5) ≤ 100 := by
  constructor <;> norm_num [relative_calculate_score, pyTruthy, normalize_score]

/-- C1 (amended): the DCF, Graham and Magic Formula scores and the
clamped adjusted score always lie in [0, 100], and so does the composite
score whenever the weights are non-negative and sum to 1 and every present
model score is in [0, 100]; the Relative score, however, lies in [0, 120]:
it stays in [0, 100] only when the PEG component is absent, and can exceed
100 (up to 120) when PEG is present, because the PEG sub-score is weighted
by 1.2 before the plain average is taken. -/
theorem C1_score_bounds :
    (∀ per pbr peg, 0 ≤ relative_calculate_score per pbr peg ∧
      relative_calculate_score per pbr peg ≤ 120) ∧
    (∀ per pbr peg, pyTruthy peg = false →
      relative_calculate_score per pbr peg ≤ 100) ∧
    (∀ u : ℚ, 0 ≤ dcf_score u ∧ dcf_score u ≤ 100) ∧
    (∀ roic ey : ℚ, 0 ≤ magic_calculate_score roic ey ∧
      magic_calculate_score roic ey ≤ 100) ∧
    (∀ (c : GrahamCriteria) (mos : Option ℝ), 0 ≤ graham_score c.passed mos ∧
      graham_score c.passed mos ≤ 100) ∧
    (∀ (w : Weights) (s : ModelScores), 0 ≤ w.dcf → 0 ≤ w.relative →
      0 ≤ w.graham → 0 ≤ w.magic → w.total = 1 →
      (∀ x ∈ s.dcf, 0 ≤ x ∧ x ≤ 100) → (∀ x ∈ s.relative, 0 ≤ x ∧ x ≤ 100) →
      (∀ x ∈ s.graham, 0 ≤ x ∧ x ≤ 100) → (∀ x ∈ s.magic, 0 ≤ x ∧ x ≤ 100) →
      0 ≤ calculate_composite_score w s ∧ calculate_composite_score w s ≤ 100) ∧
    (∀ (base : ℚ) (ai : AIAnalysis) (explain : Bool),
      0 ≤ (integrate_results base ai explain).adjusted_score ∧
      (integrate_results base ai explain).adjusted_score ≤ 100) := by
  have hrel : ∀ per pbr peg, 0 ≤ relative_calculate_score per pbr peg ∧
      relative_calculate_score per pbr peg ≤ 120 := by
    intro per pbr peg
    have b1 := normalize_score_bounds per 0.7 0.9 1.1 true
    have b2 := normalize_score_bounds pbr 0.7 0.9 1.1 true
    have b3 := normalize_score_bounds peg 0.7 1.0 1.5 true
    cases h1 : pyTruthy per <;> cases h2 : pyTruthy pbr <;> cases h3 : pyTruthy peg <;>
      simp [relative_calculate_score, h1, h2, h3] <;>
      constructor <;> linarith
  have hrel100 : ∀ per pbr peg, pyTruthy peg = false →
      relative_calculate_score per pbr peg ≤ 100 := by
    intro per pbr peg h3
    have b1 := normalize_score_bounds per 0.7 0.9 1.1 true
    have b2 := normalize_score_bounds pbr 0.7 0.9 1.1 true
    cases h1 : pyTruthy per <;> cases h2 : pyTruthy pbr <;>
      simp [relative_calculate_score, h1, h2, h3] <;> linarith
  refine ⟨hrel, hrel100, ?_, ?_, ?_, ?_, ?_⟩
  · intro u
    exact ⟨le_max_left 0 _, max_le (by norm_num) (min_le_left _ _)⟩
  · intro roic ey
    have b1 := normalize_score_bounds (Option.some roic) 20 10 5 false
    have b2 := normalize_score_bounds (Option.some ey) 10 5 2 false
    unfold magic_calculate_score
    constructor <;> linarith
  · intro c mos
    have hp : (c.passed : ℝ) ≤ 7 := by exact_mod_cast passed_le_seven c
    have hp0 : (0 : ℝ) ≤ (c.passed : ℝ) := Nat.cast_nonneg _
    have hsafety : 0 ≤ graham_safety_score mos ∧ graham_safety_score mos ≤ 30 := by
      rcases mos with _ | m
      · simp [graham_safety_score]
      · by_cases hm : m = 0
        · simp [graham_safety_score, hm]
        · simp only [graham_safety_score, hm, ne_eq, not_false_eq_true, if_true]
          exact ⟨le_max_left 0 _, max_le (by norm_num) (min_le_left _ _)⟩
    unfold graham_score
    have h70 : (c.passed : ℝ) / 7 * 70 ≤ 70 := by linarith
    have h00 : (0 : ℝ) ≤ (c.passed : ℝ) / 7 * 70 := by positivity
    exact ⟨by linarith [hsafety.1], by linarith [hsafety.2]⟩
  · intro w s hw1 hw2 hw3 hw4 htot h1 h2 h3 h4
    obtain ⟨a1, a2, a3⟩ := contrib_bounds w.dcf s.dcf hw1 h1
    obtain ⟨b1, b2, b3⟩ := contrib_bounds w.relative s.relative hw2 h2
    obtain ⟨c1, c2, c3⟩ := contrib_bounds w.graham s.graham hw3 h3
    obtain ⟨d1, d2, d3⟩ := contrib_bounds w.magic s.magic hw4 h4
    simp only [calculate_composite_score]
    split_ifs with hv
    · norm_num
    · have hvpos : 0 < weight_contrib w.dcf s.dcf + weight_contrib w.relative s.relative +
          weight_contrib w.graham s.graham + weight_contrib w.magic s.magic :=
        lt_of_le_of_ne (by linarith) (Ne.symm hv)
      constructor
      · have : 0 ≤ score_contrib w.dcf s.dcf + score_contrib w.relative s.relative +
            score_contrib w.graham s.graham + score_contrib w.magic s.magic := by linarith
        have := div_nonneg this (le_of_lt hvpos)
        rw [htot]
        linarith
      · rw [htot, mul_one, div_le_iff₀ hvpos]
        linarith
  · intro base ai explain
    have h0 : (0 : ℚ) ≤ max 0 (min 100 (base + (quality_step ai.financial_quality_check).1 +
        (sentiment_step ai.sentiment_analysis base).1 + (anomaly_step ai.anomaly_detection).1)) :=
      le_max_left 0 _
    have h1 : max 0 (min 100 (base + (quality_step ai.financial_quality_check).1 +
        (sentiment_step ai.sentiment_analysis base).1 + (anomaly_step ai.anomaly_detection).1)) ≤ 100 :=
      max_le (by norm_num) (min_le_left _ _)
    simpa [integrate_results] using round1_bounds h0 h1

/-- C1 witness: the amended bounds evaluated at concrete inputs — a
PEG-free Relative score, the scenario-3 composite under the default
weights, and an adjusted score with no AI analysis. -/
theorem C1_witness :
    relative_calculate_score (Option.some 1) (Option.some 1) Option.none ≤ 100 ∧
    (0 ≤ calculate_composite_score default_weights
        ⟨Option.some 80, Option.none, Option.some 70, Option.some 77⟩ ∧
      calculate_composite_score default_weights
        ⟨Option.some 80, Option.none, Option.some 70, Option.some 77⟩ ≤ 100) ∧
    (0 ≤ (integrate_results 50 empty_ai true).adjusted_score ∧
      (integrate_results 50 empty_ai true).adjusted_score ≤ 100) := by
  exact ⟨C1_score_bounds.2.1 (Option.some 1) (Option.some 1) Option.none rfl,
    C1_score_bounds.2.2.2.2.2.1 default_weights
      ⟨Option.some 80, Option.none, Option.some 70, Option.some 77⟩
      (by norm_num [default_weights]) (by norm_num [default_weights])
      (by norm_num [default_weights]) (by norm_num [default_weights])
      (by norm_num [default_weights, Weights.total])
      (score_in_range_some 80 (by norm_num) (by norm_num)) score_in_range_none
      (score_in_range_some 70 (by norm_num) (by norm_num))
      (score_in_range_some 77 (by norm_num) (by norm_num)),
    C1_score_bounds.2.2.2.2.2.2 50 empty_ai true⟩

/-- C2 counterexample: the caller's weight map `{dcf: 0.305, relative: 0.25,
graham: 0.25, magic: 0.20}` has positive weights summing to 1.005 ≠ 1, yet
`ComprehensiveValuation.__init__` leaves it unscaled (the 0.01 tolerance
swallows the deviation), so the weights actually used sum to 1.005, not to
1.0 within ±1e-9. -/
theorem C2_counterexample :
    init_weights ⟨0.305, 0.25, 0.25, 0.20⟩ = ⟨0.305, 0.25, 0.25, 0.20⟩ ∧
    (init_weights ⟨0.305, 0.25, 0.25, 0.20⟩).total = 1.005 ∧
    ¬ |(init_weights ⟨0.305, 0.25, 0.25, 0.20⟩).total - 1| ≤ 1/1000000000 := by
  have h : |(1 : ℚ)/200| = 1/200 := abs_of_pos (by norm_num)
  refine ⟨?_, ?_, ?_⟩ <;> norm_num [init_weights, Weights.total, h]

/-- C2 (amended): `__init__` rescales the weights by `1/sum` only when the
sum differs from 1 by more than 0.01; in that case the used weights sum to
exactly 1, otherwise the map is used unchanged, so in every case the used
weights sum to 1 within ±0.01 (not ±1e-9). -/
theorem C2_weight_normalization (w : Weights)
    (h1 : 0 < w.dcf) (h2 : 0 < w.relative) (h3 : 0 < w.graham) (h4 : 0 < w.magic) :
    |(init_weights w).total - 1| ≤ 0.01 ∧
    (|w.total - 1| > 0.01 → (init_weights w).total = 1) ∧
    (¬ |w.total - 1| > 0.01 → init_weights w = w) := by
  have hs : 0 < w.total := by unfold Weights.total; linarith
  by_cases hc : |w.total - 1| > 0.01
  · have htot : (init_weights w).total = 1 := by
      simp only [init_weights, hc, if_pos]
      unfold Weights.total at hs ⊢
      field_simp
    refine ⟨?_, fun _ => htot, fun hn => absurd hc hn⟩
    rw [htot]
    norm_num
  · have hid : init_weights w = w := by simp [init_weights, hc]
    refine ⟨?_, fun hcc => absurd hcc hc, fun _ => hid⟩
    rw [hid]
    linarith [not_lt.mp hc]

/-- C2 witness: a positive weight map summing to 8 is rescaled and the used
weights sum to exactly 1. -/
theorem C2_witness :
    |(init_weights ⟨2, 2, 2, 2⟩).total - 1| ≤ 0.01 ∧ (init_weights ⟨2, 2, 2, 2⟩).total = 1 := by
  have h := C2_weight_normalization ⟨2, 2, 2, 2⟩ (by norm_num) (by norm_num)
    (by norm_num) (by norm_num)
  refine ⟨h.1, h.2.1 ?_⟩
  rw [show |((⟨2, 2, 2, 2⟩ : Weights).total : ℚ) - 1| = 7 by
    rw [show ((⟨2, 2, 2, 2⟩ : Weights).total : ℚ) - 1 = 7 by norm_num [Weights.total]]
    exact abs_of_pos (by norm_num)]
  norm_num

/-- C3: `_calculate_composite_score` equals the specified formula
`weighted_sum / valid_weight · Σ(all weights)` over the models with a present
score (0 when none is present), and on the concrete scenario — default
weights, scores `{dcf: 80, relative: absent, graham: 70, magic: 77}` — the
composite rounded to 2 decimals is 75.87; the all-absent case returns 0
rather than failing. -/
theorem C3_composite_formula :
    (∀ (w : Weights) (s : ModelScores),
      calculate_composite_score w s = composite_spec w s) ∧
    round2 (calculate_composite_score default_weights
      ⟨Option.some 80, Option.none, Option.some 70, Option.some 77⟩) = 75.87 ∧
    calculate_composite_score default_weights
      ⟨Option.some 80, Option.none, Option.some 70, Option.some 77⟩ = 1138/15 ∧
    calculate_composite_score default_weights
      ⟨Option.none, Option.none, Option.none, Option.none⟩ = 0 := by
  refine ⟨?_, ?_, ?_, ?_⟩
  · intro w s
    obtain ⟨d, r, g, m⟩ := s
    cases d <;> cases r <;> cases g <;> cases m <;>
      simp [calculate_composite_score, composite_spec, score_contrib,
        weight_contrib, Weights.total, mul_comm]
  · norm_num [round2, pyRound, calculate_composite_score, default_weights,
      score_contrib, weight_contrib, Weights.total]
  · norm_num [calculate_composite_score, default_weights, score_contrib,
      weight_contrib, Weights.total]
  · norm_num [calculate_composite_score, default_weights, score_contrib,
      weight_contrib, Weights.total]

/-- C5: `ComprehensiveValuation.analyze` builds `model_scores` with
`round(v, 2) if v else None`, so a model whose `calculate` returned a genuine
score of exactly 0 is reported as the null/absent state — although the same
score participates in the composite weighting (here contributing weight 0.30
with value 0, pulling the composite to 35).  The claim (a present score of 0
must be reported as 0, never as null) is what the code's own `is not None`
convention elsewhere intends, and the code contradicts it. -/
theorem C5_zero_score_reported_as_null :
    report_score (Option.some 0) = Option.none ∧
    analyze_model_scores ⟨Option.some 0, Option.some 50, Option.some 50, Option.some 50⟩ =
      ⟨Option.none, Option.some 50, Option.some 50, Option.some 50⟩ ∧
    calculate_composite_score default_weights
      ⟨Option.some 0, Option.some 50, Option.some 50, Option.some 50⟩ = 35 := by
  refine ⟨?_, ?_, ?_⟩
  · norm_num [report_score]
  · norm_num [analyze_model_scores, report_score, round2, pyRound]
  · norm_num [calculate_composite_score, default_weights, score_contrib,
      weight_contrib, Weights.total]

/-- C6: `_calculate_confidence` returns low exactly when the total absolute
adjustment exceeds 15 or there are at least 3 negative factors, medium
exactly when it is not low and the total exceeds 8 or there are at least 2
factors, and high otherwise; a total of exactly 16 always yields low, 8.01
yields at most medium, and an integration producing zero adjustments always
yields high (with no adjustments at most the sentiment-discrepancy factor
can be present, so the factor count is at most 1). -/
theorem C6_confidence_thresholds :
    (∀ (adjs : List Adjustment) (factors : List String),
      calculate_confidence adjs factors = "low" ↔
        ((adjs.map fun a => |a.adjustment|).sum > 15 ∨ factors.length ≥ 3)) ∧
    (∀ (adjs : List Adjustment) (factors : List String),
      calculate_confidence adjs factors = "medium" ↔
        (¬((adjs.map fun a => |a.adjustment|).sum > 15 ∨ factors.length ≥ 3) ∧
          ((adjs.map fun a => |a.adjustment|).sum > 8 ∨ factors.length ≥ 2))) ∧
    (∀ (adjs : List Adjustment) (factors : List String),
      calculate_confidence adjs factors = "high" ↔
        (¬((adjs.map fun a => |a.adjustment|).sum > 15 ∨ factors.length ≥ 3) ∧
          ¬((adjs.map fun a => |a.adjustment|).sum > 8 ∨ factors.length ≥ 2))) ∧
    (∀ (adjs : List Adjustment) (factors : List String),
      (adjs.map fun a => |a.adjustment|).sum = 16 →
      calculate_confidence adjs factors = "low") ∧
    (∀ (adjs : List Adjustment) (factors : List String),
      (adjs.map fun a => |a.adjustment|).sum = 8.01 →
      calculate_confidence adjs factors = "medium" ∨
        calculate_confidence adjs factors = "low") ∧
    (∀ (base : ℚ) (ai : AIAnalysis) (explain : Bool),
      (integrate_results base ai explain).adjustments = [] →
      (integrate_results base ai explain).confidence_level = "high") := by
  have hlow : ∀ (adjs : List Adjustment) (factors : List String),
      calculate_confidence adjs factors = "low" ↔
        ((adjs.map fun a => |a.adjustment|).sum > 15 ∨ factors.length ≥ 3) := by
    intro adjs factors
    unfold calculate_confidence
    split_ifs with h1 h2 <;> simp_all
  have hmed : ∀ (adjs : List Adjustment) (factors : List String),
      calculate_confidence adjs factors = "medium" ↔
        (¬((adjs.map fun a => |a.adjustment|).sum > 15 ∨ factors.length ≥ 3) ∧
          ((adjs.map fun a => |a.adjustment|).sum > 8 ∨ factors.length ≥ 2)) := by
    intro adjs factors
    unfold calculate_confidence
    split_ifs with h1 h2 <;> simp_all
  have hhigh : ∀ (adjs : List Adjustment) (factors : List String),
      calculate_confidence adjs factors = "high" ↔
        (¬((adjs.map fun a => |a.adjustment|).sum > 15 ∨ factors.length ≥ 3) ∧
          ¬((adjs.map fun a => |a.adjustment|).sum > 8 ∨ factors.length ≥ 2)) := by
    intro adjs factors
    unfold calculate_confidence
    split_ifs with h1 h2 <;> simp_all
  refine ⟨hlow, hmed, hhigh, ?_, ?_, ?_⟩
  · intro adjs factors h
    exact (hlow adjs factors).mpr (Or.inl (by rw [h]; norm_num))
  · intro adjs factors h
    by_cases h3 : factors.length ≥ 3
    · exact Or.inr ((hlow adjs factors).mpr (Or.inr h3))
    · refine Or.inl ((hmed adjs factors).mpr ⟨?_, Or.inl (by rw [h]; norm_num)⟩)
      push_neg
      rw [h]
      exact ⟨by norm_num, by omega⟩
  · intro base ai explain h
    simp only [integrate_results] at h ⊢
    obtain ⟨h12, ha⟩ := List.append_eq_nil.mp h
    obtain ⟨hq, hs⟩ := List.append_eq_nil.mp h12
    rw [h, quality_step_factors_of_empty _ hq, anomaly_step_factors_of_empty _ ha]
    have hlen := sentiment_step_factors_len ai.sentiment_analysis base
    simp only [calculate_confidence, List.map_nil, List.sum_nil, List.nil_append,
      List.append_nil]
    rw [if_neg (by push_neg; exact ⟨by norm_num, by omega⟩),
      if_neg (by push_neg; exact ⟨by norm_num, by omega⟩)]

/-- C6 witness: a single adjustment of +16 yields low; a single adjustment
of +8.01 yields at most medium; integrating with the empty AI analysis
produces zero adjustments and confidence high. -/
theorem C6_witness :
    calculate_confidence [⟨"financial_quality", 16, "r"⟩] [] = "low" ∧
    (calculate_confidence [⟨"financial_quality", 8.01, "r"⟩] [] = "medium" ∨
      calculate_confidence [⟨"financial_quality", 8.01, "r"⟩] [] = "low") ∧
    (integrate_results 50 empty_ai true).confidence_level = "high" := by
  have h16 : |(16 : ℚ)| = 16 := abs_of_pos (by norm_num)
  have h801 : |(8.01 : ℚ)| = 8.01 := abs_of_pos (by norm_num)
  refine ⟨C6_confidence_thresholds.2.2.2.1 _ [] (by simp [h16]),
    C6_confidence_thresholds.2.2.2.2.1 _ [] (by simp [h801]),
    C6_confidence_thresholds.2.2.2.2.2 50 empty_ai true ?_⟩
  simp [integrate_results, empty_ai, quality_step, sentiment_step, anomaly_step]

/-- C7 counterexample: with the AI analysis absent, `_integrate_results`
still clamps; at a composite base score of 120 (reachable when the Relative
model alone is present with a PEG-boosted score above 100) the result is not
identical to the composite: the adjusted score is 100 and the score change
is −20, despite `adjustments = []`. -/
theorem C7_counterexample :
    (integrate_results 120 empty_ai false).adjustments = [] ∧
    (integrate_results 120 empty_ai false).base_score = 120 ∧
    (integrate_results 120 empty_ai false).adjusted_score = 100 ∧
    (integrate_results 120 empty_ai false).score_change = -20 := by
  refine ⟨?_, ?_, ?_, ?_⟩ <;>
    norm_num [integrate_results, empty_ai, quality_step, sentiment_step,
      anomaly_step, round1, pyRound]

/-- C7 (amended): when the AI analysis map is entirely absent and the
composite base score lies in [0, 100] (as it does whenever every present
model score does), `_integrate_results` returns the composite unchanged:
no adjustments, zero score change, adjusted score equal to the base score,
confidence high, no explanation, and the final rating equal to the rating
the composite band function assigns to that score (the two band functions
are identical); outside [0, 100] the adjusted score is clamped first. -/
theorem C7_no_ai_identity (base : ℚ) (explain : Bool)
    (h0 : 0 ≤ base) (h1 : base ≤ 100) :
    integrate_results base empty_ai explain =
      ⟨round1 base, round1 base, 0, get_rating_from_score base, "high", [], 0, false⟩ ∧
    get_rating_from_score base = get_composite_rating base := by
  have hclamp : max 0 (min 100 base) = base := by
    rw [min_eq_right h1, max_eq_right h0]
  constructor
  · simp only [integrate_results, empty_ai, quality_step, sentiment_step,
      anomaly_step, add_zero]
    rw [hclamp]
    norm_num [calculate_confidence, round1, pyRound]
  · rfl

/-- C7 witness: at the scenario-4 base score 72.5 with the AI analysis
absent, the hybrid result is the composite itself, rated "buy". -/
theorem C7_witness :
    integrate_results 72.5 empty_ai true =
      ⟨72.5, 72.5, 0, "buy", "high", [], 0, false⟩ := by
  rw [(C7_no_ai_identity 72.5 true (by norm_num) (by norm_num)).1]
  norm_num [round1, pyRound, get_rating_from_score]

/-- C9: the sentiment deltas of `_integrate_results` are −8 for a strong
negative impact, −4 for a moderate negative impact, +5 / +2 for a strong /
moderate positive impact but only when the base score is below 70; at a base
score of 70 or above a positive impact contributes no adjustment record and
leaves the adjusted score at the clamped base score. -/
theorem C9_sentiment_adjustment :
    (∀ base : ℚ, sentiment_delta SentimentImpact.negative_strong base =
      Option.some (-8)) ∧
    (∀ base : ℚ, sentiment_delta SentimentImpact.negative_moderate base =
      Option.some (-4)) ∧
    (∀ base : ℚ, base < 70 →
      sentiment_delta SentimentImpact.positive_strong base = Option.some 5) ∧
    (∀ base : ℚ, base < 70 →
      sentiment_delta SentimentImpact.positive_moderate base = Option.some 2) ∧
    (∀ base : ℚ, 70 ≤ base →
      sentiment_delta SentimentImpact.positive_strong base = Option.none ∧
      sentiment_delta SentimentImpact.positive_moderate base = Option.none) ∧
    (∀ (base : ℚ) (impact : SentimentImpact) (trend : String) (disc : Bool)
        (explain : Bool), 70 ≤ base →
      (impact = SentimentImpact.positive_strong ∨
        impact = SentimentImpact.positive_moderate) →
      (integrate_results base
        ⟨Option.none, Option.some ⟨impact, trend, disc⟩, Option.none⟩
        explain).adjustments = [] ∧
      (integrate_results base
        ⟨Option.none, Option.some ⟨impact, trend, disc⟩, Option.none⟩
        explain).adjusted_score = round1 (max 0 (min 100 base))) := by
  refine ⟨fun base => rfl, fun base => rfl,
    fun base h => by simp [sentiment_delta, h],
    fun base h => by simp [sentiment_delta, h],
    fun base h => ⟨by simp [sentiment_delta, not_lt.mpr h],
      by simp [sentiment_delta, not_lt.mpr h]⟩, ?_⟩
  intro base impact trend disc explain h himp
  rcases himp with rfl | rfl <;>
    constructor <;>
      simp [integrate_results, quality_step, sentiment_step, anomaly_step,
        sentiment_delta, not_lt.mpr h]

/-- C9 witness: at base 69 a strong positive impact contributes +5, while at
base 70 the same impact contributes nothing and the adjusted score stays at
the base. -/
theorem C9_witness :
    sentiment_delta SentimentImpact.positive_strong 69 = Option.some 5 ∧
    sentiment_delta SentimentImpact.negative_strong 90 = Option.some (-8) ∧
    (integrate_results 70
      ⟨Option.none, Option.some ⟨SentimentImpact.positive_strong, "improving", false⟩,
        Option.none⟩ true).adjustments = [] ∧
    (integrate_results 70
      ⟨Option.none, Option.some ⟨SentimentImpact.positive_strong, "improving", false⟩,
        Option.none⟩ true).adjusted_score = 70 := by
  have h := C9_sentiment_adjustment.2.2.2.2.2 70
    SentimentImpact.positive_strong "improving" false true (by norm_num)
    (Or.inl rfl)
  refine ⟨C9_sentiment_adjustment.2.2.1 69 (by norm_num),
    C9_sentiment_adjustment.1 90, h.1, ?_⟩
  rw [h.2]
  norm_num [round1, pyRound]

theorem batch_length (results : List Outcome) :
    (batch_successes results).length + (batch_failures results).length =
      results.length := by
  induction results with
  | nil => simp [batch_successes, batch_failures]
  | cons r rs ih =>
    cases r <;> simp [batch_successes, batch_failures] at ih ⊢ <;> omega

/-- C8: the batch endpoint accounts for every ticker — each per-ticker
failure became a `{ticker, error}` record instead of aborting, so the
response has exactly one entry per input; the successful results form the
prefix of the response, sorted by the adjusted score in descending order (a
permutation of the successes), and the error records are concatenated after
them in their original order. -/
theorem C8_batch_failure_isolation :
    ∀ results : List Outcome,
      (analyze_batch results).total = results.length ∧
      (analyze_batch results).results.length = results.length ∧
      (analyze_batch results).success + (analyze_batch results).failed =
        (analyze_batch results).total ∧
      (analyze_batch results).results =
        (List.insertionSort score_ge (batch_successes results)).map
          Outcome.success ++ batch_failures results ∧
      List.Sorted score_ge (List.insertionSort score_ge (batch_successes results)) ∧
      List.Perm (List.insertionSort score_ge (batch_successes results))
        (batch_successes results) ∧
      (∀ t e, Outcome.failure t e ∈ results →
        Outcome.failure t e ∈ (analyze_batch results).results) ∧
      (∀ i : BatchItem, Outcome.success i ∈ results →
        Outcome.success i ∈ (analyze_batch results).results) := by
  intro results
  have hperm := List.perm_insertionSort score_ge (batch_successes results)
  have hlen : (List.insertionSort score_ge (batch_successes results)).length =
      (batch_successes results).length := hperm.length_eq
  have htotal := batch_length results
  refine ⟨rfl, ?_, ?_, rfl, List.sorted_insertionSort score_ge _, hperm, ?_, ?_⟩
  · simp only [analyze_batch, List.length_append, List.length_map, hlen]
    omega
  · simp only [analyze_batch, hlen]
    omega
  · intro t e h
    have hf : Outcome.failure t e ∈ batch_failures results :=
      List.mem_filter.mpr ⟨h, by simp⟩
    exact List.mem_append_right _ hf
  · intro i h
    have hsucc : i ∈ batch_successes results :=
      List.mem_filterMap.mpr ⟨Outcome.success i, h, rfl⟩
    have hsort : i ∈ List.insertionSort score_ge (batch_successes results) :=
      hperm.mem_iff.mpr hsucc
    exact List.mem_append_left _ (List.mem_map_of_mem Outcome.success hsort)

/-- C8 witness: a batch where the middle ticker fails — the failure shows up
as an error record after the successes, the successes are sorted descending
by score, and nothing is dropped. -/
theorem C8_witness :
    Outcome.failure "000660" "model failure" ∈
      (analyze_batch [Outcome.success ⟨"005930", 70⟩,
        Outcome.failure "000660" "model failure",
        Outcome.success ⟨"035720", 80⟩]).results ∧
    Outcome.success ⟨"035720", 80⟩ ∈
      (analyze_batch [Outcome.success ⟨"005930", 70⟩,
        Outcome.failure "000660" "model failure",
        Outcome.success ⟨"035720", 80⟩]).results ∧
    (analyze_batch [Outcome.success ⟨"005930", 70⟩,
        Outcome.failure "000660" "model failure",
        Outcome.success ⟨"035720", 80⟩]).results =
      [Outcome.success ⟨"035720", 80⟩, Outcome.success ⟨"005930", 70⟩,
        Outcome.failure "000660" "model failure"] := by
  refine ⟨(C8_batch_failure_isolation _).2.2.2.2.2.2.1 "000660" "model failure"
      (by simp),
    (C8_batch_failure_isolation _).2.2.2.2.2.2.2 ⟨"035720", 80⟩ (by simp), ?_⟩
  simp only [analyze_batch, batch_successes, batch_failures]
  norm_num [List.filterMap, List.filter, List.insertionSort, List.orderedInsert,
    score_ge]

theorem pyRoundR_intCast (n : ℤ) : pyRoundR (n : ℝ) = n := by
  unfold pyRoundR
  rw [Int.floor_intCast]
  norm_num

theorem round2R_intCast (n : ℤ) : round2R (n : ℝ) = n := by
  unfold round2R
  rw [show ((n : ℝ) * 100) = ((n * 100 : ℤ) : ℝ) by push_cast; ring, pyRoundR_intCast]
  push_cast
  ring

theorem round2R_natCast (n : ℕ) : round2R (n : ℝ) = n := by
  have := round2R_intCast (n : ℤ)
  simpa using this

theorem sqrt_900 : Real.sqrt (22.5 * 2 * 20) = 30 := by
  rw [show (22.5 : ℝ) * 2 * 20 = 30 ^ 2 by norm_num]
  exact Real.sqrt_sq (by norm_num)

theorem graham_number_of_pos {e b : ℝ} (he : 0 < e) (hb : 0 < b) :
    graham_number (Option.some e) (Option.some b) =
      Option.some (Real.sqrt (22.5 * e * b)) := by
  simp [graham_number, not_le.mpr he, not_le.mpr hb]

theorem graham_mos_of_pos {e b p : ℝ} (he : 0 < e) (hb : 0 < b) (hp : p ≠ 0) :
    graham_margin_of_safety (Option.some (Real.sqrt (22.5 * e * b)))
      (Option.some p) = Option.some (graham_mos_value e b p) := by
  have hgnpos : 0 < Real.sqrt (22.5 * e * b) := Real.sqrt_pos.mpr (by positivity)
  simp [graham_margin_of_safety, graham_mos_value, ne_of_gt hgnpos, hp]

/-- C4 counterexample: at EPS 2, BPS 20, price 30 the Graham Number is
`sqrt(900) = 30`, equal to the price, so the computed margin of safety is
exactly 0; the claimed formula awards `clamp((0+30)/60×30, 0, 30) = 15`
safety points, but `calculate` guards the safety band with the Python-truthy
`if margin_of_safety:` and returns a score of 0 (criteria component alone,
all criteria failing) instead of 15. -/
theorem C4_counterexample :
    (graham_calculate true (Option.some 2) (Option.some 20) (Option.some 30)
      ⟨false, false, false, false, false, false, false⟩).score = Option.some 0 ∧
    (0 : ℝ) / 7 * 70 + graham_clamp 0 = 15 ∧
    (0 : ℝ) ≠ 15 := by
  have hgn : graham_number (Option.some 2) (Option.some 20) = Option.some 30 := by
    rw [graham_number_of_pos (by norm_num) (by norm_num), sqrt_900]
  have hmos : graham_margin_of_safety (Option.some (30 : ℝ)) (Option.some 30) =
      Option.some 0 := by
    norm_num [graham_margin_of_safety]
  have h0 : round2R (0 : ℝ) = 0 := by simpa using round2R_intCast 0
  refine ⟨?_, ?_, by norm_num⟩
  · simp [graham_calculate, hgn, hmos, graham_score, graham_safety_score,
      GrahamCriteria.passed, h0]
  · norm_num [graham_clamp]

/-- C4 (amended): whenever the Graham Number is computable (EPS, BPS > 0) and
a nonzero price is available, the score equals
`(criteria_passed/7)×70 + clamp((margin_of_safety+30)/60×30, 0, 30)` for
every nonzero margin of safety — with +30% or more giving the full 30 safety
points and −30% or worse giving 0 — but a margin of safety of exactly 0%
contributes 0 points, not 15, because the safety band is guarded by the
Python-truthy `if margin_of_safety:`. -/
theorem C4_graham_score_formula (e b p : ℝ) (c : GrahamCriteria)
    (he : 0 < e) (hb : 0 < b) (hp : p ≠ 0) :
    (graham_mos_value e b p ≠ 0 →
      (graham_calculate true (Option.some e) (Option.some b) (Option.some p)
        c).score = Option.some (round2R ((c.passed : ℝ) / 7 * 70 +
          graham_clamp (graham_mos_value e b p)))) ∧
    (graham_mos_value e b p = 0 →
      (graham_calculate true (Option.some e) (Option.some b) (Option.some p)
        c).score = Option.some (round2R ((c.passed : ℝ) / 7 * 70))) ∧
    (30 ≤ graham_mos_value e b p →
      graham_clamp (graham_mos_value e b p) = 30) ∧
    (graham_mos_value e b p ≤ -30 →
      graham_clamp (graham_mos_value e b p) = 0) := by
  have hgn := graham_number_of_pos he hb
  have hmos := graham_mos_of_pos he hb hp
  refine ⟨?_, ?_, ?_, ?_⟩
  · intro hne
    simp [graham_calculate, hgn, hmos, graham_score, graham_safety_score, hne,
      graham_clamp]
  · intro hz
    simp [graham_calculate, hgn, hmos, graham_score, graham_safety_score, hz]
  · intro h30
    unfold graham_clamp
    rw [min_eq_left (by linarith), max_eq_right (by norm_num)]
  · intro h30
    unfold graham_clamp
    rw [min_eq_right (by linarith), max_eq_left (by linarith)]

/-- C4 witness: at EPS 2, BPS 20, price 15 the margin of safety is +50%
(nonzero), all criteria failing, so the score is the full 30 safety points. -/
theorem C4_witness :
    (graham_calculate true (Option.some 2) (Option.some 20) (Option.some 15)
      ⟨false, false, false, false, false, false, false⟩).score =
      Option.some 30 := by
  have hm : graham_mos_value 2 20 15 = 50 := by
    rw [graham_mos_value, sqrt_900]
    norm_num
  have h := C4_graham_score_formula 2 20 15
    ⟨false, false, false, false, false, false, false⟩
    (by norm_num) (by norm_num) (by norm_num)
  rw [h.1 (by rw [hm]; norm_num), hm]
  have h30 : round2R (30 : ℝ) = 30 := by simpa using round2R_intCast 30
  norm_num [GrahamCriteria.passed, graham_clamp, h30]

/-- C10: when the stock record, financial statement and price are all
present but the Graham Number is undefined — exactly when EPS or BPS is
missing or non-positive — `GrahamValuation.calculate` still returns a
present numeric score equal to the criteria component alone,
`criteria_passed × 10 ≤ 70`, with `graham_number` and `margin_of_safety`
reported as null; the model does not enter the absent state. -/
theorem C10_graham_score_without_graham_number :
    (∀ e b : ℝ, graham_number (Option.some e) (Option.some b) = Option.none ↔
      e ≤ 0 ∨ b ≤ 0) ∧
    (∀ (eps bps price : Option ℝ) (c : GrahamCriteria),
      graham_number eps bps = Option.none →
      (graham_calculate true eps bps price c).score =
        Option.some ((10 * c.passed : ℕ) : ℝ) ∧
      (graham_calculate true eps bps price c).graham_number = Option.none ∧
      (graham_calculate true eps bps price c).margin_of_safety = Option.none ∧
      ((10 * c.passed : ℕ) : ℝ) ≤ 70) := by
  constructor
  · intro e b
    by_cases hc : e ≤ 0 ∨ b ≤ 0 <;> simp [graham_number, hc]
  · intro eps bps price c hgn
    have hmos : graham_margin_of_safety Option.none price = Option.none := by
      cases price <;> rfl
    have hcast : (c.passed : ℝ) / 7 * 70 = ((10 * c.passed : ℕ) : ℝ) := by
      push_cast
      ring
    have hr : round2R (10 * (c.passed : ℝ)) = 10 * (c.passed : ℝ) := by
      have := round2R_natCast (10 * c.passed)
      push_cast at this
      exact this
    have hle : ((10 * c.passed : ℕ) : ℝ) ≤ 70 := by
      have := passed_le_seven c
      exact_mod_cast by omega
    refine ⟨?_, ?_, ?_, hle⟩ <;>
      simp [graham_calculate, hgn, hmos, graham_score, graham_safety_score,
        hcast, hr]

/-- C10 witness: EPS −1 (non-positive) with all seven criteria passing —
the score is a present 70, the maximum without a Graham Number, and both
`graham_number` and `margin_of_safety` are null. -/
theorem C10_witness :
    (graham_calculate true (Option.some (-1)) (Option.some 40)
      (Option.some 100) ⟨true, true, true, true, true, true, true⟩).score =
      Option.some 70 ∧
    (graham_calculate true (Option.some (-1)) (Option.some 40)
      (Option.some 100)
      ⟨true, true, true, true, true, true, true⟩).graham_number =
      Option.none ∧
    (graham_calculate true (Option.some (-1)) (Option.some 40)
      (Option.some 100)
      ⟨true, true, true, true, true, true, true⟩).margin_of_safety =
      Option.none := by
  have hgn : graham_number (Option.some (-1 : ℝ)) (Option.some 40) =
      Option.none :=
    (C10_graham_score_without_graham_number.1 (-1) 40).mpr
      (Or.inl (by norm_num))
  have h := C10_graham_score_without_graham_number.2 (Option.some (-1))
    (Option.some 40) (Option.some 100) ⟨true, true, true, true, true, true, true⟩
    hgn
  refine ⟨?_, h.2.1, h.2.2.1⟩
  rw [h.1]
  norm_num [GrahamCriteria.passed]

end Stormlands
